import Mathlib

/-
  Verification development for the filebrowser HTTP file server
  (src/index.js).  The request handler, path sandboxing, download
  headers and the tar-archiving walker/encoder pipeline are embedded
  shallowly below; theorems settle the behavioural claims about them.

  Paths and header values are modelled as lists of characters; the
  filesystem seen by a request is an association list from absolute
  paths to stat information; the directory walk feeding the archiver
  is a list of walk events.
-/

namespace FileBrowser

/-- Character list of a string literal. -/
def chars (s : String) : List Char := s.data

/-- Boolean prefix test on lists, used both for the handler check that
embeds String.startsWith (src/index.js line 174) and for segment-level
descendant tests. -/
def leadsList {α : Type} [DecidableEq α] : List α → List α → Bool
  | [], _ => true
  | _ :: _, [] => false
  | a :: as, b :: bs => if a = b then leadsList as bs else false

/-- Split a path into its nonempty segments between slash separators
(node path semantics: repeated and leading and trailing slashes yield
no segments). -/
def splitPathAux : List Char → List Char → List (List Char)
  | [], acc => if acc = [] then [] else [acc.reverse]
  | c :: cs, acc =>
    if c = '/' then
      if acc = [] then splitPathAux cs [] else acc.reverse :: splitPathAux cs []
    else
      splitPathAux cs (c :: acc)

/-- Segments of a path, in order. -/
def splitPath (p : List Char) : List (List Char) := splitPathAux p []

/-- One step of node path normalization over a segment stack: a dot
segment is dropped, a dot-dot segment pops the stack (above the root of
an absolute path it is discarded), any other segment is pushed. -/
def normStep (acc : List (List Char)) (seg : List Char) : List (List Char) :=
  if seg = chars "." then acc
  else if seg = chars ".." then acc.dropLast
  else acc ++ [seg]

/-- Normalized segment list of an absolute path (collapses dot and
dot-dot segments the way node path.normalize does for absolute paths). -/
def normSegs (segs : List (List Char)) : List (List Char) := segs.foldl normStep []

/-- Render a normalized absolute segment list back to a path string. -/
def renderAbs (segs : List (List Char)) : List Char :=
  if segs = [] then ['/'] else segs.foldl (fun acc seg => acc ++ '/' :: seg) []

/-- path.join of the resolved absolute serve root with the decoded
request path, including normalization of dot and dot-dot segments
(src/index.js line 171, node path.join semantics for an absolute first
argument). -/
def nodeJoin (root rel : List Char) : List Char :=
  renderAbs (normSegs (splitPath root ++ splitPath rel))

/-- path.basename: last segment of a path, empty for the root. -/
def basename (p : List Char) : List Char := (splitPath p).getLastD []

/-- Follows the claim's words (not the source): a fully normalized
absolute path is inside the sandbox iff the normalized root segment
list is a segment-wise prefix of its segment list, i.e. the path is the
root or a strict descendant of it. -/
def withinRoot (root full : List Char) : Bool :=
  leadsList (normSegs (splitPath root)) (splitPath full)

/-- Unreserved characters that the JS builtin encodeURIComponent leaves
unescaped: ASCII letters, digits, and - _ . ! ~ * apostrophe ( ). -/
def uriUnreserved (c : Char) : Bool :=
  c.isAlpha || c.isDigit || c = '-' || c = '_' || c = '.' || c = '!' ||
  c = '~' || c = '*' || c = Char.ofNat 39 || c = '(' || c = ')'

/-- Uppercase hexadecimal digit of a value below 16. -/
def hexDigit (n : Nat) : Char :=
  if n < 10 then Char.ofNat (48 + n) else Char.ofNat (55 + n)

/-- Percent escape of a single byte. -/
def pctByte (b : Nat) : List Char := ['%', hexDigit (b / 16), hexDigit (b % 16)]

/-- UTF-8 bytes of a unicode code point. -/
def utf8Bytes (n : Nat) : List Nat :=
  if n < 128 then [n]
  else if n < 2048 then [192 + n / 64, 128 + n % 64]
  else if n < 65536 then [224 + n / 4096, 128 + n / 64 % 64, 128 + n % 64]
  else [240 + n / 262144, 128 + n / 4096 % 64, 128 + n / 64 % 64, 128 + n % 64]

/-- encodeURIComponent on one character. -/
def encChar (c : Char) : List Char :=
  if uriUnreserved c then [c] else (utf8Bytes c.toNat).flatMap pctByte

/-- The JS builtin encodeURIComponent (percent-encoding every character
outside the unreserved set, via UTF-8 bytes). -/
def encodeURIComponent (s : List Char) : List Char := s.flatMap encChar

/-- The regex replace of every occurrence of percent-two-zero by a plus
sign (src/index.js line 21), left to right. -/
def replacePct20 : List Char → List Char
  | '%' :: '2' :: '0' :: rest => '+' :: replacePct20 rest
  | c :: rest => c :: replacePct20 rest
  | [] => []

/-- safeEncode (src/index.js lines 20-22): encodeURIComponent followed
by replacing each percent-escaped space with a plus sign. -/
def safeEncode (s : List Char) : List Char := replacePct20 (encodeURIComponent s)

/-- The fixed leading part of the Content-Disposition value built at
src/index.js line 36 (the two code-39 characters are the quote pair of
the RFC 5987 extended parameter). -/
def dispoHead : List Char :=
  chars "attachment; filename*=UTF-8" ++ [Char.ofNat 39, Char.ofNat 39]

/-- Follows the spec's words (not the source): the Content-Disposition
value for a directory archive, with the name part being the plain
percent-encoding of the directory's base name followed by the tar
suffix. -/
def specArchiveDisposition (base : List Char) : List Char :=
  dispoHead ++ encodeURIComponent base ++ chars ".tar"

/-- Response headers set by setDownloadHeaders. -/
structure Headers where
  contentType : List Char
  contentDisposition : List Char
  acceptRanges : List Char
  contentLength : Option Nat
deriving DecidableEq

/-- setDownloadHeaders (src/index.js lines 34-41).  The content type
argument is an option because mime.lookup returns a falsy value for an
unknown type; the size argument is an option because the directory
branch passes no size; a present size of zero is falsy in JS, so the
Content-Length header is set only for a present nonzero size. -/
def setDownloadHeaders (filename : List Char) (contentType : Option (List Char))
    (fileSize : Option Nat) : Headers :=
  { contentType := contentType.getD (chars "application/octet-stream")
    contentDisposition := dispoHead ++ safeEncode filename
    acceptRanges := chars "none"
    contentLength :=
      match fileSize with
      | none => none
      | some n => if n = 0 then none else some n }

/-- Stat information of one filesystem node. -/
structure NodeInfo where
  isFile : Bool
  isDir : Bool
  size : Nat
deriving DecidableEq

/-- An incoming request: the Range header (absent, or present with a
value), the download query parameter, and the decoded request path. -/
structure Req where
  range : Option (List Char)
  download : Option (List Char)
  path : List Char
deriving DecidableEq

/-- JS truthiness of a possibly absent header string: absent and the
empty string are falsy. -/
def jsTruthy : Option (List Char) → Bool
  | none => false
  | some s => !s.isEmpty

/-- Lookup of a path in the request's view of the filesystem. -/
def lookupFs : List (List Char × NodeInfo) → List Char → Option NodeInfo
  | [], _ => none
  | (p, i) :: rest, q => if p = q then some i else lookupFs rest q

/-- Outcome of the request handler (src/index.js lines 156-203 and
346-351): which branch answered and, for download branches, the
headers it set. -/
inductive Action where
  | rangeRejected
  | forbidden
  | notFound
  | fileDownload (h : Headers)
  | dirArchive (h : Headers)
  | listing
  | inlineFile (h : Headers)
deriving DecidableEq

/-- requestPath after the root special case (src/index.js line 169). -/
def effPath (req : Req) : List Char := if req.path = chars "/" then [] else req.path

/-- The request handler of validateAndStart (src/index.js lines
156-203, with the non-download file branch of lines 346-351): reject a
truthy Range header with 416; join the decoded path onto the root;
reject with 403 when the joined path does not have the root as a string
prefix; 404 when the path does not exist; then dispatch on the download
parameter and the node kind.  The directory listing branch is abstracted
to its choice. -/
def handle (mime : List Char → Option (List Char))
    (fsTree : List (List Char × NodeInfo)) (root : List Char) (req : Req) : Action :=
  if jsTruthy req.range then Action.rangeRejected
  else
    let fullPath := nodeJoin root (effPath req)
    if !leadsList root fullPath then Action.forbidden
    else
      match lookupFs fsTree fullPath with
      | none => Action.notFound
      | some info =>
        if req.download = some (chars "true") then
          if info.isFile then
            Action.fileDownload
              (setDownloadHeaders (basename fullPath) (mime fullPath) (some info.size))
          else
            Action.dirArchive
              (setDownloadHeaders (basename fullPath ++ chars ".tar")
                (some (chars "application/x-tar")) none)
        else
          if info.isDir then Action.listing
          else Action.inlineFile
            (setDownloadHeaders (basename fullPath) (mime fullPath) (some info.size))

/-- Content-Length header of the action's response, when the action is
one of the streaming branches. -/
def clenOf : Action → Option Nat
  | Action.fileDownload h => h.contentLength
  | Action.dirArchive h => h.contentLength
  | Action.inlineFile h => h.contentLength
  | _ => none

/-- Content-Disposition header of the action's response. -/
def dispoOf : Action → List Char
  | Action.fileDownload h => h.contentDisposition
  | Action.dirArchive h => h.contentDisposition
  | Action.inlineFile h => h.contentDisposition
  | _ => []

/-- Content-Type header of the action's response. -/
def ctypeOf : Action → List Char
  | Action.fileDownload h => h.contentType
  | Action.dirArchive h => h.contentType
  | Action.inlineFile h => h.contentType
  | _ => []

/-- Whether the action starts streaming bytes of served content. -/
def startsDownload : Action → Bool
  | Action.fileDownload _ => true
  | Action.dirArchive _ => true
  | Action.inlineFile _ => true
  | _ => false

/-
  The archive pipeline of createTarArchive (src/index.js lines 59-145).
  The directory walk is modelled as the list of walker events the
  session processes: one event per regular file found (carrying the
  relative path and size from the walker's stat, and the result of the
  later read of the file), and one event per walk error node.  The
  tar-stream pack feeding the response is modelled as a state machine.
-/

/-- Result of reading a file's bytes after its header was committed:
the content actually read, or a stream read error. -/
inductive ReadResult where
  | ok (content : List Nat)
  | readErr
deriving DecidableEq

/-- One event of the directory walker: a regular file (with the stat
size recorded at discovery and the later read result) or a per-node
walk error (the errors event of src/index.js lines 76-79). -/
inductive WalkEvent where
  | file (name : List Char) (statSize : Nat) (rr : ReadResult)
  | errors
deriving DecidableEq

/-- One item of the archive output stream: an entry header carrying a
name and a size, a run of entry content bytes, block padding, or the
end-of-archive trailer. -/
inductive OutItem where
  | header (name : List Char) (size : Nat)
  | bytes (content : List Nat)
  | pad (n : Nat)
  | eof
deriving DecidableEq

/-- Modelled from the spec: the state of the tar-stream pack, whose
source is a dependency not under src/.  Per the spec's encoder
contract, a destroyed pack accepts no further entries and is never
finalized; finalizing a live pack appends the end-of-archive trailer. -/
structure PackState where
  destroyed : Bool
  finalized : Bool
  output : List OutItem
deriving DecidableEq

/-- State of one archive session of createTarArchive: the shared
isDestroyed flag set on client disconnect (src/index.js line 134), the
pack, whether the response was terminated by the pack error handler
(lines 66-73), and how many files were opened for reading (calls of
fs.createReadStream at line 100). -/
structure ArchState where
  isDestroyed : Bool
  pack : PackState
  resEnded : Bool
  filesOpened : Nat
deriving DecidableEq

/-- Fresh session state at the start of createTarArchive. -/
def initArchState : ArchState :=
  { isDestroyed := false
    pack := { destroyed := false, finalized := false, output := [] }
    resEnded := false
    filesOpened := 0 }

/-- Modelled from the spec: tar block padding of an entry body to the
512-byte alignment of the container format. -/
def padLen (sz : Nat) : Nat := (512 - sz % 512) % 512

/-- One step of the session on one walker event, following the file
handler of src/index.js lines 81-124.  An errors event only logs and
calls next (lines 76-79), leaving the session unchanged.  For a file
event: when the session is destroyed the handler returns at once
(lines 82-85); when the pack is already destroyed or finalized,
pack.entry throws and the catch block just moves on (lines 120-123);
otherwise the entry header (named by the relative path, sized by the
walker's stat) is committed and the file is opened (lines 94-100).  A
read error then destroys the entry and hence the pack, whose error
handler ends the response (lines 103-107 and 66-73).  Otherwise the
file's bytes are piped in; per the spec's encoder contract a byte count
differing from the header size is a fatal size mismatch destroying the
pack, while a matching count pads the entry to block alignment. -/
def stepCore (s : ArchState) : WalkEvent → ArchState
  | WalkEvent.errors => s
  | WalkEvent.file name statSize rr =>
    if s.isDestroyed then s
    else if s.pack.destroyed || s.pack.finalized then s
    else
      let p1 : PackState :=
        { s.pack with output := s.pack.output ++ [OutItem.header name statSize] }
      let s1 : ArchState := { s with pack := p1, filesOpened := s.filesOpened + 1 }
      match rr with
      | ReadResult.readErr =>
        { s1 with pack := { s1.pack with destroyed := true }, resEnded := true }
      | ReadResult.ok content =>
        let p2 : PackState :=
          { s1.pack with output := s1.pack.output ++ [OutItem.bytes content] }
        if content.length = statSize then
          { s1 with pack := { p2 with output := p2.output ++ [OutItem.pad (padLen statSize)] } }
        else
          { s1 with pack := { p2 with destroyed := true }, resEnded := true }

/-- The close handler of the client connection (src/index.js lines
133-137): set the shared isDestroyed flag and destroy the pack (the
walker pause is subsumed by quantifying over any remaining events). -/
def cancelSession (s : ArchState) : ArchState :=
  { s with isDestroyed := true, pack := { s.pack with destroyed := true } }

/-- Modelled from the spec: pack.finalize of the tar-stream dependency,
appending the end-of-archive trailer to a pack that is neither
destroyed nor already finalized. -/
def finalizePack (p : PackState) : PackState :=
  if p.destroyed || p.finalized then p
  else { p with finalized := true, output := p.output ++ [OutItem.eof] }

/-- The walker end handler (src/index.js lines 126-130): finalize the
pack unless the session was destroyed. -/
def finishWalk (s : ArchState) : ArchState :=
  if s.isDestroyed then s else { s with pack := finalizePack s.pack }

/-- Run the session from a given state over the walker events and then
the end handler. -/
def runFrom (s : ArchState) (evs : List WalkEvent) : ArchState :=
  finishWalk (List.foldl stepCore s evs)

/-- Run one whole archive session of createTarArchive. -/
def runArchive (evs : List WalkEvent) : ArchState := runFrom initArchState evs

/-- A walker event that encodes cleanly: an error event, or a file
whose content at read time still has the stat size. -/
def goodEv : WalkEvent → Bool
  | WalkEvent.file _ statSize (ReadResult.ok content) => content.length == statSize
  | WalkEvent.file _ _ ReadResult.readErr => false
  | WalkEvent.errors => true

/-- The archive items one cleanly encoding walker event contributes. -/
def encodeEv : WalkEvent → List OutItem
  | WalkEvent.file name statSize (ReadResult.ok content) =>
    [OutItem.header name statSize, OutItem.bytes content, OutItem.pad (padLen statSize)]
  | WalkEvent.file _ _ ReadResult.readErr => []
  | WalkEvent.errors => []

/-- Archive items contributed by a list of events, in encounter order. -/
def concatAll : List WalkEvent → List OutItem
  | [] => []
  | e :: es => encodeEv e ++ concatAll es

/-- Number of file events in a walk. -/
def fileCount : List WalkEvent → Nat
  | [] => 0
  | WalkEvent.file _ _ _ :: es => fileCount es + 1
  | WalkEvent.errors :: es => fileCount es

/-- Number of per-entry walk errors reported (console diagnostics of
the errors handler, src/index.js line 77). -/
def walkErrorReports : List WalkEvent → Nat
  | [] => 0
  | WalkEvent.errors :: es => walkErrorReports es + 1
  | WalkEvent.file _ _ _ :: es => walkErrorReports es

/-- Whether every entry header in the output is immediately followed by
a content run of exactly the size the header recorded. -/
def entriesSizeConsistent : List OutItem → Bool
  | OutItem.header _ sz :: OutItem.bytes c :: rest =>
    (c.length == sz) && entriesSizeConsistent rest
  | _ :: rest => entriesSizeConsistent rest
  | [] => true

/-- Modelled from the spec: the twelve-byte octal size field of a tar
header (eleven octal digits and a terminating NUL). -/
def octal12 (n : Nat) : List Nat :=
  ((List.range 11).reverse.map (fun i => 48 + n / 8 ^ i % 8)) ++ [0]

/-- Modelled from the spec: a 512-byte tar header block carrying the
entry name and size (the detailed USTAR field layout lives in the
tar-stream dependency, which is not under src/). -/
def headerBlock (name : List Char) (sz : Nat) : List Nat :=
  let raw := (name.map fun c => c.toNat % 256) ++ [0] ++ octal12 sz
  let t := raw.take 512
  t ++ List.replicate (512 - t.length) 0

/-- Modelled from the spec: bytes of one archive output item; the
end-of-archive trailer is two 512-byte all-zero blocks. -/
def renderItem : OutItem → List Nat
  | OutItem.header n sz => headerBlock n sz
  | OutItem.bytes c => c
  | OutItem.pad k => List.replicate k 0
  | OutItem.eof => List.replicate 1024 0

/-- Bytes of a list of archive output items. -/
def renderItems : List OutItem → List Nat
  | [] => []
  | it :: rest => renderItem it ++ renderItems rest

/-- The byte stream a session state has produced. -/
def tarBytes (s : ArchState) : List Nat := renderItems s.pack.output

/-
  Shared fixtures: a mime lookup that knows no types, and a small
  filesystem under the resolved serve root /srv with a sibling /srvx
  of the root, a directory whose name contains a space, an empty file
  and a nonempty file.
-/

/-- A mime lookup returning a falsy value for every path. -/
def mime0 : List Char → Option (List Char) := fun _ => none

/-- Demo filesystem for concrete evaluations. -/
def demoFs : List (List Char × NodeInfo) :=
  [ (chars "/srv/a b", { isFile := false, isDir := true, size := 0 }),
    (chars "/srv/z", { isFile := true, isDir := false, size := 0 }),
    (chars "/srv/w", { isFile := true, isDir := false, size := 7 }),
    (chars "/srvx", { isFile := true, isDir := false, size := 7 }) ]

/-- Request escaping the sandbox into the sibling /srvx of the root. -/
def reqEscape : Req :=
  { range := none, download := some (chars "true"), path := chars "/../srvx" }

/-- Download request carrying a Range header with an empty value. -/
def reqEmptyRange : Req :=
  { range := some [], download := some (chars "true"), path := chars "/w" }

/-- Request carrying a nonempty Range header. -/
def reqRanged : Req :=
  { range := some (chars "bytes=0-"), download := none, path := chars "/" }

/-- Directory download request for the directory named with a space. -/
def reqDirDl : Req :=
  { range := none, download := some (chars "true"), path := chars "/a b" }

/-- Download request for the empty file. -/
def reqZeroDl : Req :=
  { range := none, download := some (chars "true"), path := chars "/z" }

/-- Download request for the nonempty file. -/
def reqPosDl : Req :=
  { range := none, download := some (chars "true"), path := chars "/w" }

/-
  Helper lemmas about the archive session.
-/

/-- An errors event leaves the session state unchanged. -/
theorem stepCore_err (s : ArchState) : stepCore s WalkEvent.errors = s := rfl

/-- Once the pack is destroyed, every walker event leaves the session
state unchanged: the handler either returns early on the session flag
or catches the throw of pack.entry and moves on. -/
theorem stepCore_dead (s : ArchState) (ev : WalkEvent)
    (h : s.pack.destroyed = true) : stepCore s ev = s := by
  cases ev <;> simp [stepCore, h]

/-- Once the pack is destroyed, the whole remaining walk leaves the
session state unchanged. -/
theorem foldl_dead (evs : List WalkEvent) : ∀ s : ArchState,
    s.pack.destroyed = true → List.foldl stepCore s evs = s := by
  induction evs with
  | nil => intro s _; rfl
  | cons e es ih =>
    intro s h
    rw [List.foldl_cons, stepCore_dead s e h]
    exact ih s h

/-- The end handler does nothing on a destroyed pack. -/
theorem finishWalk_dead (s : ArchState) (h : s.pack.destroyed = true) :
    finishWalk s = s := by
  obtain ⟨d, ⟨pd, pf, po⟩, r, f⟩ := s
  simp at h
  subst h
  simp [finishWalk, finalizePack]

/-- A session whose pack is destroyed never changes again. -/
theorem runFrom_dead (s : ArchState) (evs : List WalkEvent)
    (h : s.pack.destroyed = true) : runFrom s evs = s := by
  rw [runFrom, foldl_dead evs s h]
  exact finishWalk_dead s h

/-- A live session encodes a file whose read matches the stat size as
header, content and padding, and opens one file. -/
theorem stepCore_ok (s : ArchState) (name : List Char) (sz : Nat) (c : List Nat)
    (h1 : s.isDestroyed = false) (h2 : s.pack.destroyed = false)
    (h3 : s.pack.finalized = false) (hc : c.length = sz) :
    stepCore s (WalkEvent.file name sz (ReadResult.ok c)) =
      { s with
        pack := { s.pack with output := s.pack.output ++
          [OutItem.header name sz, OutItem.bytes c, OutItem.pad (padLen sz)] },
        filesOpened := s.filesOpened + 1 } := by
  obtain ⟨d, ⟨pd, pf, po⟩, r, f⟩ := s
  simp at h1 h2 h3
  subst h1; subst h2; subst h3
  simp [stepCore, hc]

/-- A live session processing cleanly encoding events appends exactly
their items in encounter order and opens one file per file event. -/
theorem foldl_good (evs : List WalkEvent) : ∀ s : ArchState,
    s.isDestroyed = false → s.pack.destroyed = false → s.pack.finalized = false →
    (∀ e ∈ evs, goodEv e = true) →
    List.foldl stepCore s evs =
      { s with
        pack := { s.pack with output := s.pack.output ++ concatAll evs },
        filesOpened := s.filesOpened + fileCount evs } := by
  induction evs with
  | nil =>
    intro s _ _ _ _
    obtain ⟨d, ⟨pd, pf, po⟩, r, f⟩ := s
    simp [concatAll, fileCount]
  | cons e es ih =>
    intro s h1 h2 h3 hg
    have hge : goodEv e = true := hg e (List.mem_cons_self e es)
    have hgs : ∀ x ∈ es, goodEv x = true := fun x hx => hg x (List.mem_cons_of_mem e hx)
    cases e with
    | errors =>
      rw [List.foldl_cons, stepCore_err, ih s h1 h2 h3 hgs]
      obtain ⟨d, ⟨pd, pf, po⟩, r, f⟩ := s
      simp [concatAll, encodeEv, fileCount]
    | file name sz rr =>
      cases rr with
      | readErr => simp [goodEv] at hge
      | ok c =>
        have hc : c.length = sz := by simpa [goodEv] using hge
        rw [List.foldl_cons, stepCore_ok s name sz c h1 h2 h3 hc]
        rw [ih _ (by simp [h1]) (by simp [h2]) (by simp [h3]) hgs]
        obtain ⟨d, ⟨pd, pf, po⟩, r, f⟩ := s
        simp [concatAll, encodeEv, fileCount, List.append_assoc]
        omega

/-- The end handler finalizes a live pack, appending the trailer. -/
theorem finishWalk_live (s : ArchState) (h1 : s.isDestroyed = false)
    (h2 : s.pack.destroyed = false) (h3 : s.pack.finalized = false) :
    finishWalk s =
      { s with pack :=
          { s.pack with finalized := true, output := s.pack.output ++ [OutItem.eof] } } := by
  obtain ⟨d, ⟨pd, pf, po⟩, r, f⟩ := s
  simp at h1 h2 h3
  subst h1; subst h2; subst h3
  simp [finishWalk, finalizePack]

/-- A walk consisting only of error events contributes no items. -/
theorem concatAll_nil_of_errors : ∀ evs : List WalkEvent,
    (∀ e ∈ evs, e = WalkEvent.errors) → concatAll evs = [] := by
  intro evs
  induction evs with
  | nil => intro _; rfl
  | cons e es ih =>
    intro h
    have he : e = WalkEvent.errors := h e (List.mem_cons_self e es)
    have hr := ih (fun x hx => h x (List.mem_cons_of_mem e hx))
    subst he
    simp [concatAll, encodeEv, hr]

/-- The items of cleanly encoding events pair every header with a
content run of exactly the header's size, and the trailer keeps that
consistency. -/
theorem esc_concat : ∀ evs : List WalkEvent, (∀ e ∈ evs, goodEv e = true) →
    entriesSizeConsistent (concatAll evs ++ [OutItem.eof]) = true := by
  intro evs
  induction evs with
  | nil => intro _; rfl
  | cons e es ih =>
    intro hg
    have hge : goodEv e = true := hg e (List.mem_cons_self e es)
    have hr := ih (fun x hx => hg x (List.mem_cons_of_mem e hx))
    cases e with
    | errors => simpa [concatAll, encodeEv] using hr
    | file name sz rr =>
      cases rr with
      | readErr => simp [goodEv] at hge
      | ok c =>
        have hc : (c.length == sz) = true := by simpa [goodEv] using hge
        simp [concatAll, encodeEv, entriesSizeConsistent, hc, hr]

/-
  Claim theorems.
-/

/-- C1 (code bug in src/index.js line 174): the handler accepts a fully
normalized path that merely shares the sandbox root as a string prefix
while lying outside it.  With sandbox root /srv, the decoded request
path /../srvx joins and normalizes to the sibling /srvx, which is
neither the root nor a descendant of it, yet the startsWith check lets
the request through and a download of the sibling file is started
instead of the 403 the claim requires. -/
theorem c1_sandbox_escape :
    handle mime0 demoFs (chars "/srv") reqEscape ≠ Action.forbidden ∧
    startsDownload (handle mime0 demoFs (chars "/srv") reqEscape) = true ∧
    withinRoot (chars "/srv") (nodeJoin (chars "/srv") (effPath reqEscape)) = false := by
  decide

/-- C2: if the byte count read for an entry differs from the size in
its already committed header, the whole archive aborts: the pack is
destroyed, the response stream is terminated, the output holds only
the committed header and the mismatching bytes for that entry, and the
whole remaining walk appends nothing (no further entries and no
end-of-archive trailer). -/
theorem c2_size_mismatch_fatal (s : ArchState) (name : List Char) (sz : Nat)
    (c : List Nat) (evs : List WalkEvent)
    (h1 : s.isDestroyed = false) (h2 : s.pack.destroyed = false)
    (h3 : s.pack.finalized = false) (hm : ¬c.length = sz) :
    (stepCore s (WalkEvent.file name sz (ReadResult.ok c))).pack.destroyed = true ∧
    (stepCore s (WalkEvent.file name sz (ReadResult.ok c))).resEnded = true ∧
    (stepCore s (WalkEvent.file name sz (ReadResult.ok c))).pack.output =
      s.pack.output ++ [OutItem.header name sz, OutItem.bytes c] ∧
    runFrom (stepCore s (WalkEvent.file name sz (ReadResult.ok c))) evs =
      stepCore s (WalkEvent.file name sz (ReadResult.ok c)) := by
  obtain ⟨d, ⟨pd, pf, po⟩, r, f⟩ := s
  simp at h1 h2 h3
  subst h1; subst h2; subst h3
  refine ⟨by simp [stepCore, hm], by simp [stepCore, hm], by simp [stepCore, hm], ?_⟩
  exact runFrom_dead _ evs (by simp [stepCore, hm])

/-- Witness for C2 at a concrete input: a header committed with size 5
whose file yields only three bytes. -/
theorem c2_size_mismatch_fatal_witness :
    (stepCore initArchState
      (WalkEvent.file (chars "f") 5 (ReadResult.ok [1, 2, 3]))).pack.destroyed = true ∧
    (stepCore initArchState
      (WalkEvent.file (chars "f") 5 (ReadResult.ok [1, 2, 3]))).resEnded = true ∧
    (stepCore initArchState
      (WalkEvent.file (chars "f") 5 (ReadResult.ok [1, 2, 3]))).pack.output =
      initArchState.pack.output ++ [OutItem.header (chars "f") 5, OutItem.bytes [1, 2, 3]] ∧
    runFrom (stepCore initArchState (WalkEvent.file (chars "f") 5 (ReadResult.ok [1, 2, 3])))
        [WalkEvent.errors] =
      stepCore initArchState (WalkEvent.file (chars "f") 5 (ReadResult.ok [1, 2, 3])) :=
  c2_size_mismatch_fatal initArchState (chars "f") 5 [1, 2, 3] [WalkEvent.errors]
    rfl rfl rfl (by decide)

/-- C3: a per-entry walk error is reported and the traversal continues
unharmed: inserting an errors event anywhere in the walk leaves the
whole resulting session state (in particular every encoded entry)
unchanged and bumps the number of reported walk errors by one. -/
theorem c3_walk_error_continues (pre post : List WalkEvent) :
    runArchive (pre ++ WalkEvent.errors :: post) = runArchive (pre ++ post) ∧
    walkErrorReports (pre ++ WalkEvent.errors :: post) =
      walkErrorReports (pre ++ post) + 1 := by
  constructor
  · unfold runArchive runFrom
    rw [List.foldl_append, List.foldl_append, List.foldl_cons, stepCore_err]
  · induction pre with
    | nil => rfl
    | cons e es ih => cases e <;> simp [walkErrorReports, ih]

/-- C4: a read error after an entry's header has been committed is
fatal to the whole archive: the pack is destroyed, the response stream
is terminated, and the whole remaining walk appends nothing and opens
no further file. -/
theorem c4_read_error_fatal (s : ArchState) (name : List Char) (sz : Nat)
    (evs : List WalkEvent)
    (h1 : s.isDestroyed = false) (h2 : s.pack.destroyed = false)
    (h3 : s.pack.finalized = false) :
    (stepCore s (WalkEvent.file name sz ReadResult.readErr)).pack.destroyed = true ∧
    (stepCore s (WalkEvent.file name sz ReadResult.readErr)).resEnded = true ∧
    (stepCore s (WalkEvent.file name sz ReadResult.readErr)).pack.output =
      s.pack.output ++ [OutItem.header name sz] ∧
    runFrom (stepCore s (WalkEvent.file name sz ReadResult.readErr)) evs =
      stepCore s (WalkEvent.file name sz ReadResult.readErr) := by
  obtain ⟨d, ⟨pd, pf, po⟩, r, f⟩ := s
  simp at h1 h2 h3
  subst h1; subst h2; subst h3
  refine ⟨by simp [stepCore], by simp [stepCore], by simp [stepCore], ?_⟩
  exact runFrom_dead _ evs (by simp [stepCore])

/-- Witness for C4 at a concrete input: a committed header whose file
read fails, followed by one more file event that must change nothing. -/
theorem c4_read_error_fatal_witness :
    (stepCore initArchState
      (WalkEvent.file (chars "g") 4 ReadResult.readErr)).pack.destroyed = true ∧
    (stepCore initArchState
      (WalkEvent.file (chars "g") 4 ReadResult.readErr)).resEnded = true ∧
    (stepCore initArchState
      (WalkEvent.file (chars "g") 4 ReadResult.readErr)).pack.output =
      initArchState.pack.output ++ [OutItem.header (chars "g") 4] ∧
    runFrom (stepCore initArchState (WalkEvent.file (chars "g") 4 ReadResult.readErr))
        [WalkEvent.file (chars "h") 1 (ReadResult.ok [0])] =
      stepCore initArchState (WalkEvent.file (chars "g") 4 ReadResult.readErr) :=
  c4_read_error_fatal initArchState (chars "g") 4
    [WalkEvent.file (chars "h") 1 (ReadResult.ok [0])] rfl rfl rfl

/-- C5: once the client disconnect handler has run (cancellation flag
set, pack destroyed), the session never changes again, whatever the
walker still delivers: no new entry is created, nothing more is written
to the archive output, and no further file is opened for reading. -/
theorem c5_cancellation_no_new_entries (s : ArchState) (evs : List WalkEvent) :
    runFrom (cancelSession s) evs = cancelSession s ∧
    (runFrom (cancelSession s) evs).pack.output = s.pack.output ∧
    (runFrom (cancelSession s) evs).filesOpened = s.filesOpened := by
  have h : (cancelSession s).pack.destroyed = true := rfl
  have hr := runFrom_dead (cancelSession s) evs h
  exact ⟨hr, by rw [hr]; rfl, by rw [hr]; rfl⟩

/-- C6 counterexample: the size field of a committed entry header is
the walker's stat size, not the file's size at the moment of opening.
A file recorded with stat size 5 that holds three bytes when opened is
encoded with a header sized 5 followed by the three bytes actually
read, so the emitted entry violates the claimed header/content size
agreement. -/
theorem c6_counterexample :
    (stepCore initArchState
      (WalkEvent.file (chars "a") 5 (ReadResult.ok [1, 2, 3]))).pack.output =
      [OutItem.header (chars "a") 5, OutItem.bytes [1, 2, 3]] ∧
    entriesSizeConsistent
      (stepCore initArchState
        (WalkEvent.file (chars "a") 5 (ReadResult.ok [1, 2, 3]))).pack.output = false := by
  decide

/-- C6 amended: each entry's header is sized by the walker's stat of
that file, and when the file still holds exactly that many bytes at
read time the archive contains, in encounter order, the header followed
by exactly that content and its block padding, finalized by the
trailer; every header in the completed archive agrees with the content
run following it. -/
theorem c6_amended_headers_match_stat (evs : List WalkEvent)
    (hg : ∀ e ∈ evs, goodEv e = true) :
    (runArchive evs).pack.output = concatAll evs ++ [OutItem.eof] ∧
    (runArchive evs).pack.destroyed = false ∧
    entriesSizeConsistent (runArchive evs).pack.output = true := by
  unfold runArchive runFrom
  rw [foldl_good evs initArchState rfl rfl rfl hg]
  rw [finishWalk_live _ rfl rfl rfl]
  refine ⟨by simp [initArchState], by simp [initArchState], ?_⟩
  have := esc_concat evs hg
  simpa [initArchState] using this

/-- Witness for C6 amended at a concrete walk: one unchanged file and
one walk error. -/
theorem c6_amended_headers_match_stat_witness :
    (runArchive [WalkEvent.file (chars "f") 3 (ReadResult.ok [7, 8, 9]),
        WalkEvent.errors]).pack.output =
      concatAll [WalkEvent.file (chars "f") 3 (ReadResult.ok [7, 8, 9]),
        WalkEvent.errors] ++ [OutItem.eof] ∧
    (runArchive [WalkEvent.file (chars "f") 3 (ReadResult.ok [7, 8, 9]),
        WalkEvent.errors]).pack.destroyed = false ∧
    entriesSizeConsistent (runArchive [WalkEvent.file (chars "f") 3 (ReadResult.ok [7, 8, 9]),
        WalkEvent.errors]).pack.output = true :=
  c6_amended_headers_match_stat
    [WalkEvent.file (chars "f") 3 (ReadResult.ok [7, 8, 9]), WalkEvent.errors] (by decide)

/-- C7: a walk that yields no regular file (only, possibly, per-entry
walk errors) produces an archive whose output is exactly the
end-of-archive trailer, rendered as two 512-byte all-zero blocks, with
no entry header and no entry body. -/
theorem c7_empty_dir_trailer_only (evs : List WalkEvent)
    (h : ∀ e ∈ evs, e = WalkEvent.errors) :
    (runArchive evs).pack.output = [OutItem.eof] ∧
    tarBytes (runArchive evs) = List.replicate 1024 0 := by
  have hg : ∀ e ∈ evs, goodEv e = true := fun e he => by rw [h e he]; rfl
  have hca := concatAll_nil_of_errors evs h
  have h1 : (runArchive evs).pack.output = [OutItem.eof] := by
    unfold runArchive runFrom
    rw [foldl_good evs initArchState rfl rfl rfl hg]
    rw [finishWalk_live _ rfl rfl rfl]
    simp [initArchState, hca]
  refine ⟨h1, ?_⟩
  simp only [tarBytes]
  rw [h1]
  simp only [renderItems, renderItem, List.append_nil]

/-- Witness for C7 at a concrete walk holding one walk error and no
file. -/
theorem c7_empty_dir_trailer_only_witness :
    (runArchive [WalkEvent.errors]).pack.output = [OutItem.eof] ∧
    tarBytes (runArchive [WalkEvent.errors]) = List.replicate 1024 0 :=
  c7_empty_dir_trailer_only [WalkEvent.errors] (by decide)

/-- C8 counterexample: a request that carries a Range header with an
empty value is not rejected with 416 — the JS truthiness test at
src/index.js line 159 treats the empty header value as absent — and a
download is started for it. -/
theorem c8_counterexample :
    reqEmptyRange.range = some [] ∧
    handle mime0 demoFs (chars "/srv") reqEmptyRange ≠ Action.rangeRejected ∧
    startsDownload (handle mime0 demoFs (chars "/srv") reqEmptyRange) = true := by
  decide

/-- C8 amended: every request carrying a Range header with a nonempty
value is answered with 416 range-not-satisfiable before any filesystem
access, so neither a single-file stream nor a directory archive is
started for it. -/
theorem c8_amended_nonempty_range_rejected (mime : List Char → Option (List Char))
    (fsTree : List (List Char × NodeInfo)) (root : List Char) (req : Req)
    (v : List Char) (hr : req.range = some v) (hv : v ≠ []) :
    handle mime fsTree root req = Action.rangeRejected := by
  cases v with
  | nil => exact absurd rfl hv
  | cons a as => simp [handle, jsTruthy, hr]

/-- Witness for C8 amended at a concrete ranged request. -/
theorem c8_amended_nonempty_range_rejected_witness :
    handle mime0 demoFs (chars "/srv") reqRanged = Action.rangeRejected :=
  c8_amended_nonempty_range_rejected mime0 demoFs (chars "/srv") reqRanged
    (chars "bytes=0-") rfl (by decide)

/-- C9 counterexample: for the directory named with a space, the
Content-Disposition value built by safeEncode is not the plain
percent-encoding of the base name (the space becomes a plus sign, not
percent-two-zero); and the single-file download of the existing
zero-byte file carries no Content-Length header although its size is
known. -/
theorem c9_counterexample :
    dispoOf (handle mime0 demoFs (chars "/srv") reqDirDl) ≠
      specArchiveDisposition (chars "a b") ∧
    lookupFs demoFs (chars "/srv/z") =
      some { isFile := true, isDir := false, size := 0 } ∧
    clenOf (handle mime0 demoFs (chars "/srv") reqZeroDl) = none := by
  decide

/-- C9 amended: a directory-archive download answers with Content-Type
application/x-tar, no Content-Length, and a Content-Disposition
attachment whose name part is the percent-encoding of the base name
plus tar suffix with every percent-two-zero replaced by a plus sign;
a single-file download sets Content-Length to the file's size when
that size is nonzero. -/
theorem c9_amended_download_headers (mime : List Char → Option (List Char))
    (fsTree : List (List Char × NodeInfo)) (root : List Char) (req : Req)
    (info : NodeInfo)
    (hr : jsTruthy req.range = false)
    (hd : req.download = some (chars "true"))
    (hp : leadsList root (nodeJoin root (effPath req)) = true)
    (hl : lookupFs fsTree (nodeJoin root (effPath req)) = some info) :
    (info.isFile = false →
      ctypeOf (handle mime fsTree root req) = chars "application/x-tar" ∧
      clenOf (handle mime fsTree root req) = none ∧
      dispoOf (handle mime fsTree root req) =
        dispoHead ++ safeEncode (basename (nodeJoin root (effPath req)) ++ chars ".tar")) ∧
    (info.isFile = true → info.size ≠ 0 →
      clenOf (handle mime fsTree root req) = some info.size) := by
  have hstep : handle mime fsTree root req =
      (if info.isFile then
        Action.fileDownload (setDownloadHeaders (basename (nodeJoin root (effPath req)))
          (mime (nodeJoin root (effPath req))) (some info.size))
      else
        Action.dirArchive (setDownloadHeaders
          (basename (nodeJoin root (effPath req)) ++ chars ".tar")
          (some (chars "application/x-tar")) none)) := by
    simp [handle, hr, hp, hl, hd]
  constructor
  · intro hf
    rw [hstep, if_neg (by simp [hf])]
    exact ⟨rfl, rfl, rfl⟩
  · intro hf hsz
    rw [hstep, if_pos hf]
    simp [clenOf, setDownloadHeaders, hsz]

/-- Witness for C9 amended: the directory with a space in its name and
the nonempty file of the demo filesystem. -/
theorem c9_amended_download_headers_witness :
    (ctypeOf (handle mime0 demoFs (chars "/srv") reqDirDl) = chars "application/x-tar" ∧
     clenOf (handle mime0 demoFs (chars "/srv") reqDirDl) = none ∧
     dispoOf (handle mime0 demoFs (chars "/srv") reqDirDl) =
       dispoHead ++ safeEncode (basename (nodeJoin (chars "/srv") (effPath reqDirDl)) ++
         chars ".tar")) ∧
    clenOf (handle mime0 demoFs (chars "/srv") reqPosDl) = some 7 := by
  constructor
  · exact (c9_amended_download_headers mime0 demoFs (chars "/srv") reqDirDl
      { isFile := false, isDir := true, size := 0 } rfl rfl (by decide) (by decide)).1 rfl
  · have h := (c9_amended_download_headers mime0 demoFs (chars "/srv") reqPosDl
      { isFile := true, isDir := false, size := 7 } rfl rfl (by decide) (by decide)).2
      rfl (by decide)
    simpa using h

/-- C10: on the single-file download path the Content-Length header is
set exactly when the file's size is truthy: a zero-byte file gets no
Content-Length, a file of nonzero size gets its size. -/
theorem c10_zero_size_no_content_length (mime : List Char → Option (List Char))
    (fsTree : List (List Char × NodeInfo)) (root : List Char) (req : Req)
    (info : NodeInfo)
    (hr : jsTruthy req.range = false)
    (hd : req.download = some (chars "true"))
    (hp : leadsList root (nodeJoin root (effPath req)) = true)
    (hl : lookupFs fsTree (nodeJoin root (effPath req)) = some info)
    (hf : info.isFile = true) :
    clenOf (handle mime fsTree root req) =
      (if info.size = 0 then none else some info.size) := by
  simp [handle, hr, hp, hl, hd, hf, clenOf, setDownloadHeaders]

/-- Witness for C10 at the zero-byte and the seven-byte demo files. -/
theorem c10_zero_size_no_content_length_witness :
    clenOf (handle mime0 demoFs (chars "/srv") reqZeroDl) = none ∧
    clenOf (handle mime0 demoFs (chars "/srv") reqPosDl) = some 7 := by
  constructor
  · have h := c10_zero_size_no_content_length mime0 demoFs (chars "/srv") reqZeroDl
      { isFile := true, isDir := false, size := 0 } rfl rfl (by decide) (by decide) rfl
    simpa using h
  · have h := c10_zero_size_no_content_length mime0 demoFs (chars "/srv") reqPosDl
      { isFile := true, isDir := false, size := 7 } rfl rfl (by decide) (by decide) rfl
    simpa using h

end FileBrowser
